import Mathlib

/-!
Verification development for the PaddleHelix `paddlefold` inference core
(`alphafold_paddle/model/modules.py` and `alphafold_paddle/model/model.py`).

Tensors are shallowly embedded as curried functions from (unbounded) indices
to rationals; dimensions relevant to contractions are carried explicitly and
sums are taken over `Finset.range`.  The transcendental scalar functions used
by the source (`exp` inside softmax/sigmoid, the `key_dim ** -0.5` scale) are
carried as parameters, since none of the properties proved here depend on
their values.  Stateful Python dictionaries become Lean structures, and
fallible code returns `Except`.
-/

/-! ### Rank-n tensor abbreviations (index functions into ℚ) -/

abbrev T1 : Type := Nat → ℚ
abbrev T2 : Type := Nat → Nat → ℚ
abbrev T3 : Type := Nat → Nat → Nat → ℚ
abbrev T4 : Type := Nat → Nat → Nat → Nat → ℚ
abbrev T5 : Type := Nat → Nat → Nat → Nat → Nat → ℚ

/-- Sum of `f i` for `i < n` (model of a tensor contraction along one axis). -/
def tsumR (n : Nat) (f : Nat → ℚ) : ℚ :=
  Finset.sum (Finset.range n) f

/-! ### C5: `RunModel.update_subbatch_size` (model.py lines 221-233)

    `update_subbatch_size(seq_len, extra_msa_num)` mutates
    `self.alphafold.global_config.subbatch_size`; we model it as a function
    from the current configured size to the new size, raising
    `ValueError('Unknown subbatch strategy')` as `Except.error`. -/

def update_subbatch_size (seq_len extra_msa_num cur_subbatch_size : Nat) :
    Except String Nat :=
  if extra_msa_num = 5120 then
    if seq_len < 200 then
      -- disable subbatch
      Except.ok 5120
    else
      Except.ok cur_subbatch_size
  else if extra_msa_num = 1024 then
    if seq_len < 600 then
      -- disable subbatch
      Except.ok 1024
    else
      Except.ok cur_subbatch_size
  else
    Except.error "Unknown subbatch strategy"

/-! ### C6: `DistogramHead.forward` (modules.py lines 712-732)

    `half_logits = Linear(pair)`, `logits = half_logits + half_logitsᵀ`
    where the transpose permutation `[0, 2, 1, 3]` swaps the two residue
    axes. -/

/-- A linear layer acting on the channel (last) axis of a rank-4 tensor:
    `out[b,i,j,o] = Σ_c x[b,i,j,c] * w[c,o] + bias[o]`. -/
def linearLastAxis4 (cIn : Nat) (w : T2) (b : T1) (x : T4) : T4 :=
  fun n i j o => tsumR cIn (fun c => x n i j c * w c o) + b o

/-- `DistogramHead.forward` logits: the half-logits linear projection of the
    pair representation, symmetrised by adding its `[0,2,1,3]` transpose. -/
def distogramLogits (pairChannel : Nat) (w : T2) (b : T1) (pairRep : T4) : T4 :=
  let half_logits := linearLastAxis4 pairChannel w b pairRep
  fun n i j c => half_logits n i j c + half_logits n j i c

/-! ### Recycling driver: `AlphaFold.forward` (modules.py lines 46-135)

    The Orchestrator+Heads iteration (`self.alphafold_iteration`) is kept
    abstract as a function parameter `iter`; the structure-module atom
    positions and the representations it returns are the only parts the
    driver inspects.  Tensors here are an abstract type `τ` paired with the
    Paddle `stop_gradient` flag. -/

/-- A Paddle tensor as seen by the recycling driver: an abstract payload
    plus its `stop_gradient` flag. -/
structure GTensor (τ : Type) where
  val : τ
  stopGradient : Bool
deriving DecidableEq

/-- The parts of `ret['representations']` the recycling driver reads. -/
structure ReprOut (τ : Type) where
  msa_first_row : GTensor τ
  pairRep : GTensor τ
deriving DecidableEq

/-- The output dict of one `AlphaFoldIteration` call as seen by the driver:
    `ret['structure_module']['final_atom_positions']`,
    `ret['representations']`, and everything else (`rest`). -/
structure IterRet (τ ρ : Type) where
  finalAtomPositions : GTensor τ
  reprs : ReprOut τ
  rest : ρ
deriving DecidableEq

/-- The `prev` dict: `{prev_pos, prev_msa_first_row, prev_pair}`.  The
    driver passes either this dict or the empty dict (`Option.none` in the
    model) as `non_ensembled_batch`. -/
structure PrevState (τ : Type) where
  prev_pos : GTensor τ
  prev_msa_first_row : GTensor τ
  prev_pair : GTensor τ
deriving DecidableEq

/-- `AlphaFold.forward._get_prev`: extract the next recycling state from an
    iteration's output and set `stop_gradient = True` on every entry. -/
def getPrev {τ ρ : Type} (r : IterRet τ ρ) : PrevState τ :=
  { prev_pos := { val := r.finalAtomPositions.val, stopGradient := true },
    prev_msa_first_row := { val := r.reprs.msa_first_row.val, stopGradient := true },
    prev_pair := { val := r.reprs.pairRep.val, stopGradient := true } }

/-- The initial all-zero recycling state built by `paddle.tile` of
    `paddle.zeros_like` slices (freshly created tensors carry
    `stop_gradient = True`). -/
def zerosPrev {τ : Type} [Zero τ] : PrevState τ :=
  { prev_pos := { val := 0, stopGradient := true },
    prev_msa_first_row := { val := 0, stopGradient := true },
    prev_pair := { val := 0, stopGradient := true } }

/-- `AlphaFold.forward._run_single_recycling`: select the ensembled batch
    (a contiguous slice of the ensemble axis when
    `resample_msa_in_recycling`, the full batch otherwise) and invoke the
    iteration with `prev` as the non-ensembled batch. -/
def runSingleRecycling {τ ρ εβ : Type} (resample : Bool)
    (innerBatch numRecycle : Nat) (sliceRange : Nat → Nat → εβ)
    (fullBatch : εβ) (iter : εβ → Option (PrevState τ) → IterRet τ ρ)
    (prev : Option (PrevState τ)) (recycleIdx : Nat) : IterRet τ ρ :=
  let ensembledBatch :=
    if resample then
      let numEnsemble := innerBatch / (numRecycle + 1)
      sliceRange (recycleIdx * numEnsemble)
        (recycleIdx * numEnsemble + numEnsemble)
    else fullBatch
  iter ensembledBatch prev

/-- The recycling loop followed by the final invocation: with fuel `n`,
    performs `n` chained recycling invocations (each feeding
    `getPrev` of its output to the next) and returns the output of the
    `n+1`-st (final) invocation. -/
def recycleLoop {τ ρ : Type}
    (runOne : Option (PrevState τ) → Nat → IterRet τ ρ) :
    Nat → Option (PrevState τ) → Nat → IterRet τ ρ
  | 0, prev, idx => runOne prev idx
  | r + 1, prev, idx =>
      recycleLoop runOne r (some (getPrev (runOne prev idx))) (idx + 1)

/-- The full invocation trace of the driver: the list of (non-ensembled
    recycling input, iteration output) pairs, in invocation order. -/
def recycleTrace {τ ρ : Type}
    (runOne : Option (PrevState τ) → Nat → IterRet τ ρ) :
    Nat → Option (PrevState τ) → Nat →
      List (Option (PrevState τ) × IterRet τ ρ)
  | 0, prev, idx => [(prev, runOne prev idx)]
  | r + 1, prev, idx =>
      (prev, runOne prev idx) ::
        recycleTrace runOne r (some (getPrev (runOne prev idx))) (idx + 1)

/-- The number of recycling iterations the driver actually performs:
    `0` when `config.num_recycle` is falsy, otherwise the per-batch
    `num_iter_recycling` override clipped by `config.num_recycle` when
    present, else `config.num_recycle`. -/
def numIterModel (numRecycle : Nat) (override : Option Nat) : Nat :=
  if numRecycle = 0 then 0
  else
    match override with
    | some v => min v numRecycle
    | none => numRecycle

/-- The value returned by `AlphaFold.forward`: the final invocation's
    output dict, with `representations` deleted unless
    `return_representations`. -/
structure AFOut (τ ρ : Type) where
  representationsOut : Option (ReprOut τ)
  finalAtomPositions : GTensor τ
  rest : ρ
deriving DecidableEq

/-- `AlphaFold.forward` (modules.py lines 46-135). -/
def alphaFoldForward {τ ρ εβ : Type} [Zero τ] (numRecycle innerBatch : Nat)
    (resample : Bool) (override : Option Nat) (sliceRange : Nat → Nat → εβ)
    (fullBatch : εβ) (iter : εβ → Option (PrevState τ) → IterRet τ ρ)
    (returnRepresentations : Bool) : AFOut τ ρ :=
  let runOne := runSingleRecycling resample innerBatch numRecycle
    sliceRange fullBatch iter
  let prev0 : Option (PrevState τ) :=
    if numRecycle = 0 then none else some zerosPrev
  let ret := recycleLoop runOne (numIterModel numRecycle override) prev0 0
  { representationsOut :=
      if returnRepresentations then some ret.reprs else none,
    finalAtomPositions := ret.finalAtomPositions,
    rest := ret.rest }

/-- A probe iteration (over `τ := ℤ`) that records the non-ensembled
    recycling input it was given in the `rest` field of its output. -/
def probeIter : Unit → Option (PrevState ℤ) → IterRet ℤ (Option (PrevState ℤ)) :=
  fun _ prev =>
    { finalAtomPositions := { val := 0, stopGradient := true },
      reprs :=
        { msa_first_row := { val := 0, stopGradient := true },
          pairRep := { val := 0, stopGradient := true } },
      rest := prev }

/-- A second probe iteration (over `τ := ℤ`) whose outputs depend on the
    recycle step, used to exercise the driver on concrete inputs. -/
def countIter : Unit → Option (PrevState ℤ) → IterRet ℤ ℤ :=
  fun _ prev =>
    let x := match prev with
      | none => 0
      | some p => p.prev_pos.val + 1
    { finalAtomPositions := { val := x, stopGradient := false },
      reprs :=
        { msa_first_row := { val := x + 1, stopGradient := false },
          pairRep := { val := x + 2, stopGradient := false } },
      rest := x }

/-! ### `AlphaFoldIteration.forward` representations (modules.py lines 186-232)

    The Orchestrator (`self.evoformer`) is kept abstract as a function from
    a batch to the representations dict
    `{single, pair, msa, msa_first_row}`; each representation tensor is a
    flattened index function `T1`.  `_slice_batch(i)` (the per-member slice
    of the ensembled batch merged with the non-ensembled batch) is kept
    abstract as `sliceBatch`.  The failing `assert num_ensemble == 1`
    becomes `Except.error`.  The heads, which consume the finished
    representations, are outside this model. -/

/-- The representations dict returned by the Orchestrator. -/
structure Reprs where
  single : T1
  pair : T1
  msa : T1
  msa_first_row : T1

/-- The ensembled keys of the representations dict (after `del
    representations['msa']`). -/
structure EnsCore where
  single : T1
  pair : T1
  msa_first_row : T1

/-- Key-wise accumulation `representations[k] += representations_update[k]`. -/
def addCore (a b : EnsCore) : EnsCore :=
  { single := fun i => a.single i + b.single i,
    pair := fun i => a.pair i + b.pair i,
    msa_first_row := fun i => a.msa_first_row i + b.msa_first_row i }

/-- Key-wise division `representations[k] /= num_ensemble + 0.0`. -/
def divCore (a : EnsCore) (n : Nat) : EnsCore :=
  { single := fun i => a.single i / (n : ℚ),
    pair := fun i => a.pair i / (n : ℚ),
    msa_first_row := fun i => a.msa_first_row i / (n : ℚ) }

/-- Drop the non-ensembled `msa` key. -/
def coreOf (r : Reprs) : EnsCore :=
  { single := r.single, pair := r.pair, msa_first_row := r.msa_first_row }

/-- The representations part of `AlphaFoldIteration.forward`: assert the
    ensemble count when ensembling is off, evaluate the Orchestrator on the
    first member, set the `msa` representation aside, accumulate the
    remaining members and divide by the member count when ensembling is on,
    then restore `msa`. -/
def alphaFoldIterationRepresentations {β : Type} (evoformer : β → Reprs)
    (sliceBatch : Nat → β) (numEnsemble : Nat)
    (ensembleRepresentations : Bool) : Except String Reprs :=
  if ¬ ensembleRepresentations ∧ numEnsemble ≠ 1 then
    Except.error "assert num_ensemble == 1"
  else
    let batch0 := sliceBatch 0
    let representations := evoformer batch0
    let msa_representation := representations.msa
    let core :=
      if ensembleRepresentations then
        divCore
          ((List.range (numEnsemble - 1)).foldl
            (fun acc i => addCore acc (coreOf (evoformer (sliceBatch (i + 1)))))
            (coreOf representations))
          numEnsemble
      else coreOf representations
    Except.ok
      { single := core.single, pair := core.pair,
        msa := msa_representation, msa_first_row := core.msa_first_row }

/-- A constant Orchestrator over a unit batch, used for concrete probes. -/
def constReprs : Reprs :=
  { single := fun _ => 1, pair := fun _ => 2,
    msa := fun _ => 3, msa_first_row := fun _ => 4 }

/-- A step-dependent Orchestrator probe: member `e` returns `e`-dependent
    representations. -/
def stepReprs : Nat → Reprs := fun e =>
  { single := fun i => (e : ℚ) + i, pair := fun i => (e : ℚ) * 2 + i,
    msa := fun i => (e : ℚ) * 3 + i, msa_first_row := fun i => (e : ℚ) * 5 + i }

/-! ### Scalar primitives shared by the attention modules -/

/-- ReLU over ℚ. -/
def reluQ (x : ℚ) : ℚ := max x 0

/-- Softmax along an axis of extent `K`, with the exponential carried as an
    abstract parameter `f` (the max-subtraction Paddle performs for
    stability cancels in exact arithmetic and is omitted). -/
def softmaxAt (f : ℚ → ℚ) (K : Nat) (x : Nat → ℚ) (k : Nat) : ℚ :=
  f (x k) / tsumR K (fun j => f (x j))

/-- Sigmoid expressed through the same abstract exponential:
    `sigmoid x = 1 / (1 + exp (-x))`. -/
def sigmoidQ (f : ℚ → ℚ) (x : ℚ) : ℚ := 1 / (1 + f (-x))

/-! ### Sub-batched (chunked) evaluation (C3)

    `subbatch` lives in `alphafold_paddle/model/utils.py`, which is not part
    of the sources; per the spec (§4.2) it slices the designated input
    tensors along a configured axis into chunks of a configured size,
    invokes the underlying operation per chunk, and concatenates the results
    along a configured output axis.  On index functions, slicing chunk `t`
    of size `sz` along an axis shifts that axis by `sz * t`, and
    concatenating chunk outputs along an axis reads chunk `i / sz` at offset
    `i % sz`. -/

/-- Modelled from the spec: chunk `t` (of size `sz`) of a rank-4 tensor
    sliced along axis 1. -/
def sliceAx1of4 (sz t : Nat) (x : T4) : T4 :=
  fun n b q a => x n (sz * t + b) q a

/-- Modelled from the spec: chunk `t` (of size `sz`) of a rank-5 tensor
    sliced along axis 1. -/
def sliceAx1of5 (sz t : Nat) (x : T5) : T5 :=
  fun n b h q k => x n (sz * t + b) h q k

/-- Modelled from the spec: chunk `t` (of size `sz`) of a rank-4 tensor
    sliced along axis 2. -/
def sliceAx2of4 (sz t : Nat) (x : T4) : T4 :=
  fun n a b c => x n a (sz * t + b) c

/-! ### `Attention.forward` (modules.py lines 246-330) -/

/-- Parameters of the `Attention` module.  `key_dim`/`value_dim` are the
    per-head dimensions (after the division by `num_head` in the
    constructor); `scale` stands for the irrational factor
    `key_dim ** (-0.5)`. -/
structure AttnParams where
  num_head : Nat
  key_dim : Nat
  value_dim : Nat
  q_dim : Nat
  m_dim : Nat
  scale : ℚ
  query_w : T3
  key_w : T3
  value_w : T3
  gating : Bool
  gating_w : T3
  gating_b : T2
  output_w : T3
  output_b : T1

/-- `Attention.forward`: scaled multi-head dot-product attention with an
    additive batched bias, an optional shared non-batched bias and an
    optional sigmoid gate.  `Kk` is the key extent (`N_keys`); the abstract
    `f` stands for `exp`.  Index order follows the source einsums
    (`nbqhc` etc.): batch, row, position, channel. -/
def attention (p : AttnParams) (f : ℚ → ℚ) (Kk : Nat)
    (q_data m_data : T4) (bias : T5) (nonbatched_bias : Option T4) : T4 :=
  fun n b qi o =>
    let q : T2 := fun h c =>
      tsumR p.q_dim (fun a => q_data n b qi a * p.query_w a h c) * p.scale
    let k : T3 := fun kk h c =>
      tsumR p.m_dim (fun a => m_data n b kk a * p.key_w a h c)
    let v : T3 := fun kk h c =>
      tsumR p.m_dim (fun a => m_data n b kk a * p.value_w a h c)
    let logits : T2 := fun h kk =>
      tsumR p.key_dim (fun c => q h c * k kk h c) + bias n b h qi kk +
        nonbatched_bias.elim 0 (fun nb => nb n h qi kk)
    let weights : T2 := fun h kk => softmaxAt f Kk (fun j => logits h j) kk
    let weighted_avg : T2 := fun h c =>
      tsumR Kk (fun kk => weights h kk * v kk h c)
    let gated : T2 :=
      if p.gating then
        fun h vv => weighted_avg h vv * sigmoidQ f
          (tsumR p.q_dim (fun c => q_data n b qi c * p.gating_w c h vv) +
            p.gating_b h vv)
      else weighted_avg
    tsumR p.num_head (fun h =>
      tsumR p.value_dim (fun c => gated h c * p.output_w h c o)) +
      p.output_b o

/-- Modelled from the spec: `subbatch(self.attention, [0, 1, 2], [1, 1, 1],
    subbatch_size, 1)` — `q_data`, `m_data` and `bias` sliced along axis 1,
    outputs concatenated along axis 1. -/
def subbatchAttention (p : AttnParams) (f : ℚ → ℚ) (Kk sz : Nat)
    (q_data m_data : T4) (bias : T5) (nonbatched_bias : Option T4) : T4 :=
  fun n b qi o =>
    attention p f Kk (sliceAx1of4 sz (b / sz) q_data)
      (sliceAx1of4 sz (b / sz) m_data) (sliceAx1of5 sz (b / sz) bias)
      nonbatched_bias n (b % sz) qi o

/-- Modelled from the spec: `subbatch(self.attention, [0, 1], [1, 1],
    subbatch_size, 1)` (TemplateEmbedding) — only `q_data` and `m_data`
    sliced along axis 1; the bias broadcasts along that axis. -/
def subbatchAttentionQM (p : AttnParams) (f : ℚ → ℚ) (Kk sz : Nat)
    (q_data m_data : T4) (bias : T5) (nonbatched_bias : Option T4) : T4 :=
  fun n b qi o =>
    attention p f Kk (sliceAx1of4 sz (b / sz) q_data)
      (sliceAx1of4 sz (b / sz) m_data) bias
      nonbatched_bias n (b % sz) qi o

/-! ### `Transition.forward` chunked region (modules.py lines 598-615) -/

/-- Parameters of the two linear layers of `Transition`. -/
structure TransitionParams where
  in_dim : Nat
  inter_dim : Nat
  w1 : T2
  b1 : T1
  w2 : T2
  b2 : T1

/-- `Transition.forward.transition_module`: the `transition2 ∘ relu ∘
    transition1` body that `subbatch` chunks (the preceding layer norm is
    applied before chunking). -/
def transition_module (p : TransitionParams) (x : T4) : T4 :=
  fun b s r j =>
    tsumR p.inter_dim (fun m =>
      reluQ (tsumR p.in_dim (fun c => x b s r c * p.w1 c m) + p.b1 m) *
        p.w2 m j) +
      p.b2 j

/-- Modelled from the spec: `subbatch(transition_module, [0], [1],
    subbatch_size, 1)` — the activation sliced along axis 1, outputs
    concatenated along axis 1. -/
def subbatchTransition (p : TransitionParams) (sz : Nat) (x : T4) : T4 :=
  fun b s r j => transition_module p (sliceAx1of4 sz (s / sz) x) b (s % sz) r j

/-! ### `OuterProductMean.forward` chunked region (modules.py lines 1277-1289) -/

/-- `OuterProductMean.forward.compute_chunk` with the internal transposes
    inlined: `out[n,b,d,f] = Σ_{c,e} (Σ_a left[n,a,b,c] * right[n,a,d,e]) *
    output_w[c,e,f] + output_b[f]` (einsums `nacb,nade->ndceb` and
    `ndceb,cef->ndbf` followed by the `[0,2,1,3]` transpose). -/
def compute_chunk (nSeq nOuter : Nat) (output_w : T3) (output_b : T1)
    (right_act : T4) (left_act : T4) : T4 :=
  fun n b d ff =>
    tsumR nOuter (fun c => tsumR nOuter (fun e =>
      tsumR nSeq (fun a => left_act n a b c * right_act n a d e) *
        output_w c e ff)) +
      output_b ff

/-- Modelled from the spec: `subbatch(compute_chunk, [0], [2], chunk_size,
    1)` — `left_act` sliced along axis 2, outputs concatenated along
    axis 1. -/
def subbatchOpmChunk (nSeq nOuter : Nat) (output_w : T3) (output_b : T1)
    (right_act : T4) (sz : Nat) (left_act : T4) : T4 :=
  fun n b d ff =>
    compute_chunk nSeq nOuter output_w output_b right_act
      (sliceAx2of4 sz (b / sz) left_act) n (b % sz) d ff

/-! ### `TriangleMultiplication.forward` chunked einsum (modules.py lines
    1425-1439) -/

/-- The outgoing contraction `bikc,bjkc->bijc` over gated projected pair
    activations. -/
def triangleEinsumOutgoing (K : Nat) (left right : T4) : T4 :=
  fun b i j c => tsumR K (fun k => left b i k c * right b j k c)

/-- The incoming contraction `bkjc,bkic->bijc`. -/
def triangleEinsumIncoming (K : Nat) (left right : T4) : T4 :=
  fun b i j c => tsumR K (fun k => left b k j c * right b k i c)

/-- Modelled from the spec: `subbatch(paddle.einsum, [1], [1],
    subbatch_size, 1)` for the outgoing equation — the left operand sliced
    along axis 1 (its `i` index), outputs concatenated along output
    axis 1. -/
def subbatchTriangleOutgoing (K sz : Nat) (left right : T4) : T4 :=
  fun b i j c =>
    triangleEinsumOutgoing K (sliceAx1of4 sz (i / sz) left) right
      b (i % sz) j c

/-- Modelled from the spec: `subbatch(paddle.einsum, [1], [2],
    subbatch_size, 2)` for the incoming equation — the left operand sliced
    along axis 2 (its `j` index), outputs concatenated along output
    axis 2. -/
def subbatchTriangleIncoming (K sz : Nat) (left right : T4) : T4 :=
  fun b i j c =>
    triangleEinsumIncoming K (sliceAx2of4 sz (j / sz) left) right
      b i (j % sz) c

/-! ### `GlobalAttention.forward` (modules.py lines 333-420, C10) -/

/-- Parameters of the `GlobalAttention` module: like `Attention` but
    `key_w`/`value_w` carry no head axis. -/
structure GlobalAttnParams where
  num_head : Nat
  key_dim : Nat
  value_dim : Nat
  q_dim : Nat
  m_dim : Nat
  scale : ℚ
  query_w : T3
  key_w : T2
  value_w : T2
  gating : Bool
  gating_w : T3
  gating_b : T2
  output_w : T3
  output_b : T1

/-- Modelled from the spec: `mask_mean` (`alphafold_paddle/model/utils.py`,
    not among the sources) — the numerically-stabilised masked mean of
    `value` along an axis of extent `K`: mask-weighted sum divided by the
    mask total plus a small epsilon. -/
def mask_mean (K : Nat) (eps : ℚ) (mask value : Nat → ℚ) : ℚ :=
  tsumR K (fun k => mask k * value k) / (tsumR K mask + eps)

/-- `GlobalAttention.forward`: queries are masked-mean pooled over the
    query axis before projection; the pre-softmax bias is recomputed
    internally as `1e9 * (q_mask - 1)`, the `bias` argument notwithstanding.
    In the gated branch the output is indexed `[n,b,query,out]`; in the
    ungated branch `[n,b,out,·]` after the trailing `unsqueeze`. -/
def globalAttention (p : GlobalAttnParams) (f : ℚ → ℚ) (Kk : Nat) (eps : ℚ)
    (q_data m_data q_mask : T4) (bias : T5) : T4 :=
  fun n b i o =>
    let k : T2 := fun kk c =>
      tsumR p.m_dim (fun a => m_data n b kk a * p.key_w a c)
    let v : T2 := fun kk c =>
      tsumR p.m_dim (fun a => m_data n b kk a * p.value_w a c)
    let q_avg : T1 := fun a =>
      mask_mean Kk eps (fun kk => q_mask n b kk 0) (fun kk => q_data n b kk a)
    let q : T2 := fun h c =>
      tsumR p.q_dim (fun a => q_avg a * p.query_w a h c) * p.scale
    let biasFromMask : T1 := fun kk => 1000000000 * (q_mask n b kk 0 - 1)
    let logits : T2 := fun h kk =>
      tsumR p.key_dim (fun c => q h c * k kk c) + biasFromMask kk
    let weights : T2 := fun h kk => softmaxAt f Kk (fun j => logits h j) kk
    let weighted_avg : T2 := fun h c =>
      tsumR Kk (fun kk => weights h kk * v kk c)
    if p.gating then
      tsumR p.num_head (fun h => tsumR p.value_dim (fun c =>
        weighted_avg h c * sigmoidQ f
          (tsumR p.q_dim (fun cc => q_data n b i cc * p.gating_w cc h c) +
            p.gating_b h c) * p.output_w h c o)) +
        p.output_b o
    else
      tsumR p.num_head (fun h => tsumR p.value_dim (fun c =>
        weighted_avg h c * p.output_w h c i)) +
        p.output_b i

/-! ### `TemplateEmbedding.forward` (modules.py lines 1673-1730, C7)

    The per-template `SingleTemplateEmbedding` pipeline is kept abstract as
    `ste` (template index ↦ its `[n, i, j, c]` embedding); the
    cross-template pointwise attention and the final masking are modelled
    from the source. -/

/-- `TemplateEmbedding.forward`: flatten the query pair representation to
    `[n, R*R, 1, c]`, stack the per-template embeddings to
    `[n, R*R, T, c]`, attend across templates with bias
    `1e9 * (template_mask - 1)` (chunked along the flattened residue-pair
    axis at inference), reshape back, and multiply by the indicator
    `sum(template_mask) > 0` so there are no gradients (and no
    contribution) without templates. -/
def templateEmbeddingForward (p : AttnParams) (f : ℚ → ℚ)
    (numBatch numTemplates numRes sz : Nat) (training : Bool)
    (template_mask : T2) (query_embedding : T4) (ste : Nat → T4) : T4 :=
  let flat_query : T4 := fun n pp _q a =>
    query_embedding n (pp / numRes) (pp % numRes) a
  let flat_templates : T4 := fun n pp t c =>
    ste t n (pp / numRes) (pp % numRes) c
  let bias : T5 := fun n _b _h _q t => 1000000000 * (template_mask n t - 1)
  let embFlat : T4 :=
    if training then
      attention p f numTemplates flat_query flat_templates bias none
    else
      subbatchAttentionQM p f numTemplates sz flat_query flat_templates
        bias none
  let indicator : ℚ :=
    if 0 < tsumR numBatch (fun nn =>
        tsumR numTemplates (fun t => template_mask nn t)) then 1 else 0
  fun n i j c => embFlat n (i * numRes + j) 0 c * indicator

/-! ### `EvoformerIteration.forward` (modules.py lines 870-922, C8)

    The sublayers and their dropout wrappers are abstract parameters; the
    block composes them over abstract activation types `M` (msa) and `P`
    (pair) carrying addition for the residual updates. -/

/-- The sublayer modules (and dropout wrappers) of one Evoformer block. -/
structure EvoSublayers (M P Mm Pm : Type) where
  msa_row_attention_with_pair_bias : M → Mm → P → M
  msa_column_global_attention : M → Mm → M
  msa_column_attention : M → Mm → M
  msa_transition : M → Mm → M
  outer_product_mean : M → Mm → P
  triangle_multiplication_outgoing : P → Pm → P
  triangle_multiplication_incoming : P → Pm → P
  triangle_attention_starting_node : P → Pm → P
  triangle_attention_ending_node : P → Pm → P
  pair_transition : P → Pm → P
  msa_row_attn_dropout : M → M
  msa_col_attn_dropout : M → M
  msa_transition_dropout : M → M
  outer_product_mean_dropout : P → P
  triangle_outgoing_dropout : P → P
  triangle_incoming_dropout : P → P
  triangle_starting_dropout : P → P
  triangle_ending_dropout : P → P
  pair_transition_dropout : P → P

/-- `EvoformerIteration.forward`, translated statement by statement:
    each sublayer's output passes through its dropout wrapper and is added
    back into the msa or pair activation. -/
def evoformerIterationForward {M P Mm Pm : Type} [Add M] [Add P]
    (L : EvoSublayers M P Mm Pm) (is_extra_msa : Bool)
    (msa_act0 : M) (pair_act0 : P) (msa_mask : Mm) (pair_mask : Pm) :
    M × P :=
  let msa_act1 := msa_act0 +
    L.msa_row_attn_dropout
      (L.msa_row_attention_with_pair_bias msa_act0 msa_mask pair_act0)
  let msa_act3 :=
    if is_extra_msa then
      let msa_act2 := msa_act1 +
        L.msa_col_attn_dropout
          (L.msa_column_global_attention msa_act1 msa_mask)
      msa_act2 +
        L.msa_transition_dropout (L.msa_transition msa_act2 msa_mask)
    else
      let msa_act2 := msa_act1 +
        L.msa_col_attn_dropout (L.msa_column_attention msa_act1 msa_mask)
      msa_act2 +
        L.msa_transition_dropout (L.msa_transition msa_act2 msa_mask)
  let pair_act1 := pair_act0 +
    L.outer_product_mean_dropout (L.outer_product_mean msa_act3 msa_mask)
  let pair_act2 := pair_act1 +
    L.triangle_outgoing_dropout
      (L.triangle_multiplication_outgoing pair_act1 pair_mask)
  let pair_act3 := pair_act2 +
    L.triangle_incoming_dropout
      (L.triangle_multiplication_incoming pair_act2 pair_mask)
  let pair_act4 := pair_act3 +
    L.triangle_starting_dropout
      (L.triangle_attention_starting_node pair_act3 pair_mask)
  let pair_act5 := pair_act4 +
    L.triangle_ending_dropout
      (L.triangle_attention_ending_node pair_act4 pair_mask)
  let pair_act6 := pair_act5 +
    L.pair_transition_dropout (L.pair_transition pair_act5 pair_mask)
  (msa_act3, pair_act6)

/-- A residual msa-side update `act = act + dropout (sublayer state)`:
    only the msa activation changes, by addition. -/
def residualMsaUpdate {M P : Type} [Add M] (sub : M → P → M)
    (drop : M → M) : (M × P) → (M × P) :=
  fun s => (s.1 + drop (sub s.1 s.2), s.2)

/-- A residual pair-side update `act = act + dropout (sublayer state)`:
    only the pair activation changes, by addition. -/
def residualPairUpdate {M P : Type} [Add P] (sub : M → P → P)
    (drop : P → P) : (M × P) → (M × P) :=
  fun s => (s.1, s.2 + drop (sub s.1 s.2))

/-- The sublayer order the spec claims, written as a list of residual
    updates: row attention, column attention (global on the extra-MSA
    track), msa transition, outer product mean, triangle multiplication
    outgoing/incoming, triangle attention starting/ending, pair
    transition. -/
def evoformerClaimedUpdates {M P Mm Pm : Type} [Add M] [Add P]
    (L : EvoSublayers M P Mm Pm) (is_extra_msa : Bool)
    (msa_mask : Mm) (pair_mask : Pm) : List ((M × P) → (M × P)) :=
  [ residualMsaUpdate
      (fun m p => L.msa_row_attention_with_pair_bias m msa_mask p)
      L.msa_row_attn_dropout,
    residualMsaUpdate
      (fun m _ =>
        if is_extra_msa then L.msa_column_global_attention m msa_mask
        else L.msa_column_attention m msa_mask)
      L.msa_col_attn_dropout,
    residualMsaUpdate (fun m _ => L.msa_transition m msa_mask)
      L.msa_transition_dropout,
    residualPairUpdate (fun m _ => L.outer_product_mean m msa_mask)
      L.outer_product_mean_dropout,
    residualPairUpdate
      (fun _ p => L.triangle_multiplication_outgoing p pair_mask)
      L.triangle_outgoing_dropout,
    residualPairUpdate
      (fun _ p => L.triangle_multiplication_incoming p pair_mask)
      L.triangle_incoming_dropout,
    residualPairUpdate
      (fun _ p => L.triangle_attention_starting_node p pair_mask)
      L.triangle_starting_dropout,
    residualPairUpdate
      (fun _ p => L.triangle_attention_ending_node p pair_mask)
      L.triangle_ending_dropout,
    residualPairUpdate (fun _ p => L.pair_transition p pair_mask)
      L.pair_transition_dropout ]

/-! ## Theorems -/

/-- C5: the subbatch-size policy: extra-MSA width 5120 with `seq_len < 200`
    sets the global subbatch size to 5120; width 1024 with `seq_len < 600`
    sets it to 1024; any other width is a fatal configuration error; in every
    other case the configured size is left unchanged. -/
theorem update_subbatch_size_policy (seq_len extra_msa_num cur : Nat) :
    (extra_msa_num = 5120 → seq_len < 200 →
      update_subbatch_size seq_len extra_msa_num cur = Except.ok 5120) ∧
    (extra_msa_num = 5120 → ¬ seq_len < 200 →
      update_subbatch_size seq_len extra_msa_num cur = Except.ok cur) ∧
    (extra_msa_num = 1024 → seq_len < 600 →
      update_subbatch_size seq_len extra_msa_num cur = Except.ok 1024) ∧
    (extra_msa_num = 1024 → ¬ seq_len < 600 →
      update_subbatch_size seq_len extra_msa_num cur = Except.ok cur) ∧
    (extra_msa_num ≠ 5120 → extra_msa_num ≠ 1024 →
      update_subbatch_size seq_len extra_msa_num cur =
        Except.error "Unknown subbatch strategy") := by
  refine ⟨?_, ?_, ?_, ?_, ?_⟩ <;> intro h1 h2 <;>
    simp [update_subbatch_size, h1, h2]

/-- Witness for C5: evaluating the policy at concrete inputs from each case. -/
theorem update_subbatch_size_policy_witness :
    update_subbatch_size 150 5120 48 = Except.ok 5120 ∧
    update_subbatch_size 300 5120 48 = Except.ok 48 ∧
    update_subbatch_size 500 1024 48 = Except.ok 1024 ∧
    update_subbatch_size 700 1024 48 = Except.ok 48 ∧
    update_subbatch_size 100 2048 48 =
      Except.error "Unknown subbatch strategy" := by
  refine ⟨?_, ?_, ?_, ?_, ?_⟩
  · exact (update_subbatch_size_policy 150 5120 48).1 rfl (by decide)
  · exact (update_subbatch_size_policy 300 5120 48).2.1 rfl (by decide)
  · exact (update_subbatch_size_policy 500 1024 48).2.2.1 rfl (by decide)
  · exact (update_subbatch_size_policy 700 1024 48).2.2.2.1 rfl (by decide)
  · exact (update_subbatch_size_policy 100 2048 48).2.2.2.2
      (by decide) (by decide)

theorem recycleTrace_length {τ ρ : Type}
    (runOne : Option (PrevState τ) → Nat → IterRet τ ρ) :
    ∀ (n : Nat) (prev : Option (PrevState τ)) (idx : Nat),
      (recycleTrace runOne n prev idx).length = n + 1 := by
  intro n
  induction n with
  | zero => intro prev idx; simp [recycleTrace]
  | succ r ih => intro prev idx; simp [recycleTrace, ih]

theorem recycleTrace_get_zero {τ ρ : Type}
    (runOne : Option (PrevState τ) → Nat → IterRet τ ρ)
    (n : Nat) (prev : Option (PrevState τ)) (idx : Nat) :
    (recycleTrace runOne n prev idx)[0]? = some (prev, runOne prev idx) := by
  cases n <;> simp [recycleTrace]

theorem recycleTrace_chain_aux {τ ρ : Type}
    (runOne : Option (PrevState τ) → Nat → IterRet τ ρ) :
    ∀ (n : Nat) (prev : Option (PrevState τ)) (idx k : Nat)
      (pk pk1 : Option (PrevState τ)) (rk rk1 : IterRet τ ρ),
      (recycleTrace runOne n prev idx)[k]? = some (pk, rk) →
      (recycleTrace runOne n prev idx)[k + 1]? = some (pk1, rk1) →
      pk1 = some (getPrev rk) := by
  intro n
  induction n with
  | zero =>
    intro prev idx k pk pk1 rk rk1 _ h1
    simp [recycleTrace] at h1
  | succ r ih =>
    intro prev idx k pk pk1 rk rk1 h0 h1
    match k with
    | 0 =>
      simp only [recycleTrace, List.getElem?_cons_zero] at h0
      simp only [recycleTrace, List.getElem?_cons_succ] at h1
      rw [recycleTrace_get_zero] at h1
      obtain ⟨hp, hr⟩ := Prod.mk.injEq .. ▸ Option.some.injEq .. ▸ h0
      obtain ⟨hp1, _⟩ := Prod.mk.injEq .. ▸ Option.some.injEq .. ▸ h1
      rw [← hp1, ← hr]
    | k' + 1 =>
      simp only [recycleTrace, List.getElem?_cons_succ] at h0 h1
      exact ih _ _ k' pk pk1 rk rk1 h0 h1

theorem recycleTrace_get_last {τ ρ : Type}
    (runOne : Option (PrevState τ) → Nat → IterRet τ ρ) :
    ∀ (n : Nat) (prev : Option (PrevState τ)) (idx : Nat),
      ∃ p, (recycleTrace runOne n prev idx)[n]? =
        some (p, recycleLoop runOne n prev idx) := by
  intro n
  induction n with
  | zero => intro prev idx; exact ⟨prev, by simp [recycleTrace, recycleLoop]⟩
  | succ r ih =>
    intro prev idx
    obtain ⟨p, hp⟩ := ih (some (getPrev (runOne prev idx))) (idx + 1)
    exact ⟨p, by simpa [recycleTrace, recycleLoop] using hp⟩

theorem numIterModel_eq_min (numRecycle : Nat) (override : Option Nat) :
    numIterModel numRecycle override =
      override.elim numRecycle (fun v => min v numRecycle) := by
  unfold numIterModel
  by_cases h : numRecycle = 0
  · subst h; cases override <;> simp
  · simp only [h, if_false]; cases override <;> simp

/-- C1: the recycling driver performs exactly `num_iter + 1` iteration
    invocations, where `num_iter` is `config.num_recycle` clipped by the
    per-batch `num_iter_recycling` override when present; every invocation
    `k+1` receives as its non-ensembled input exactly the
    `{prev_pos, prev_msa_first_row, prev_pair}` extracted, with
    `stop_gradient` set, from invocation `k`'s structure-module output and
    representations; and the caller receives exactly the final invocation's
    output dict. -/
theorem alphaFold_recycling_driver {τ ρ εβ : Type} [Zero τ]
    (numRecycle innerBatch : Nat) (resample : Bool) (override : Option Nat)
    (sliceRange : Nat → Nat → εβ) (fullBatch : εβ)
    (iter : εβ → Option (PrevState τ) → IterRet τ ρ)
    (returnRepresentations : Bool) :
    let runOne := runSingleRecycling resample innerBatch numRecycle
      sliceRange fullBatch iter
    let prev0 : Option (PrevState τ) :=
      if numRecycle = 0 then none else some zerosPrev
    let numIter := override.elim numRecycle (fun v => min v numRecycle)
    let tr := recycleTrace runOne (numIterModel numRecycle override) prev0 0
    tr.length = numIter + 1 ∧
    (∀ (k : Nat) (pk pk1 : Option (PrevState τ)) (rk rk1 : IterRet τ ρ),
      tr[k]? = some (pk, rk) → tr[k + 1]? = some (pk1, rk1) →
      pk1 = some
        { prev_pos := { val := rk.finalAtomPositions.val, stopGradient := true },
          prev_msa_first_row :=
            { val := rk.reprs.msa_first_row.val, stopGradient := true },
          prev_pair := { val := rk.reprs.pairRep.val, stopGradient := true } }) ∧
    (∀ (p : Option (PrevState τ)) (r : IterRet τ ρ),
      tr[numIter]? = some (p, r) →
      alphaFoldForward numRecycle innerBatch resample override sliceRange
          fullBatch iter returnRepresentations =
        { representationsOut :=
            if returnRepresentations then some r.reprs else none,
          finalAtomPositions := r.finalAtomPositions,
          rest := r.rest }) := by
  intro runOne prev0 numIter tr
  refine ⟨?_, ?_, ?_⟩
  · rw [recycleTrace_length, numIterModel_eq_min]
  · intro k pk pk1 rk rk1 h0 h1
    have := recycleTrace_chain_aux runOne _ prev0 0 k pk pk1 rk rk1 h0 h1
    rw [this]; rfl
  · intro p r hr
    obtain ⟨p', hp'⟩ := recycleTrace_get_last runOne
      (numIterModel numRecycle override) prev0 0
    have hswap : numIter = numIterModel numRecycle override :=
      (numIterModel_eq_min numRecycle override).symm
    rw [hswap] at hr
    have hr' : (recycleTrace runOne (numIterModel numRecycle override)
        prev0 0)[numIterModel numRecycle override]? = some (p, r) := hr
    have hsome : some (p, r) =
        some (p', recycleLoop runOne (numIterModel numRecycle override)
          prev0 0) := hr'.symm.trans hp'
    have hloop : r = recycleLoop runOne (numIterModel numRecycle override)
        prev0 0 := congrArg Prod.snd (Option.some.inj hsome)
    have hdef : alphaFoldForward numRecycle innerBatch resample override
        sliceRange fullBatch iter returnRepresentations =
      { representationsOut := if returnRepresentations then
          some (recycleLoop runOne (numIterModel numRecycle override)
            prev0 0).reprs else none,
        finalAtomPositions := (recycleLoop runOne
          (numIterModel numRecycle override) prev0 0).finalAtomPositions,
        rest := (recycleLoop runOne (numIterModel numRecycle override)
          prev0 0).rest } := rfl
    rw [hdef, ← hloop]

/-- Witness for C1: the driver with `num_recycle = 2` and no override,
    exercised with a concrete probe iteration: three invocations, the chain
    condition at step 0, and the returned value. -/
theorem alphaFold_recycling_driver_witness :
    (recycleTrace
        (runSingleRecycling false 1 2 (fun _ _ => ()) () countIter)
        (numIterModel 2 none) (some zerosPrev) 0).length = 3 ∧
    (∀ (pk pk1 : Option (PrevState ℤ)) (rk rk1 : IterRet ℤ ℤ),
      (recycleTrace
          (runSingleRecycling false 1 2 (fun _ _ => ()) () countIter)
          (numIterModel 2 none) (some zerosPrev) 0)[0]? = some (pk, rk) →
      (recycleTrace
          (runSingleRecycling false 1 2 (fun _ _ => ()) () countIter)
          (numIterModel 2 none) (some zerosPrev) 0)[1]? = some (pk1, rk1) →
      pk1 = some
        { prev_pos := { val := rk.finalAtomPositions.val, stopGradient := true },
          prev_msa_first_row :=
            { val := rk.reprs.msa_first_row.val, stopGradient := true },
          prev_pair := { val := rk.reprs.pairRep.val, stopGradient := true } }) ∧
    alphaFoldForward 2 1 false none (fun _ _ => ()) () countIter true =
      { representationsOut := some
          { msa_first_row := { val := 4, stopGradient := false },
            pairRep := { val := 5, stopGradient := false } },
        finalAtomPositions := { val := 3, stopGradient := false },
        rest := 3 } := by
  obtain ⟨h1, h2, h3⟩ := alphaFold_recycling_driver (τ := ℤ) (ρ := ℤ)
    2 1 false none (fun _ _ => ()) () countIter true
  refine ⟨h1, fun pk pk1 rk rk1 ha hb => h2 0 pk pk1 rk rk1 ha hb, ?_⟩
  have := h3 (some (getPrev (countIter ()
      (some (getPrev (countIter () (some zerosPrev)))))))
    (countIter () (some (getPrev (countIter ()
      (some (getPrev (countIter () (some zerosPrev)))))))) (by decide)
  rw [this]; decide

/-- C4 counterexample: with `config.num_recycle = 0` the single forward
    pass receives the *empty* recycling dict (`none`), not the all-zero
    `{prev_pos, prev_msa_first_row, prev_pair}` tensors the claim
    describes. -/
theorem alphaFold_zero_recycle_counterexample :
    (alphaFoldForward 0 1 false none (fun _ _ => ()) () probeIter
        true).rest = none ∧
    (none : Option (PrevState ℤ)) ≠ some zerosPrev := by
  exact ⟨rfl, by simp⟩

/-- C4 (amended): when a per-batch override forces zero iterations while
    `config.num_recycle ≠ 0`, the driver performs exactly one invocation
    whose recycling input is the all-zero prev state; when
    `config.num_recycle = 0`, it performs exactly one invocation whose
    recycling input is the empty dict (no prev entries); in both cases the
    loop is bypassed and that single invocation's output is returned. -/
theorem alphaFold_zero_recycle {τ ρ εβ : Type} [Zero τ]
    (numRecycle innerBatch : Nat) (resample : Bool) (override : Option Nat)
    (sliceRange : Nat → Nat → εβ) (fullBatch : εβ)
    (iter : εβ → Option (PrevState τ) → IterRet τ ρ)
    (returnRepresentations : Bool) :
    let runOne := runSingleRecycling resample innerBatch numRecycle
      sliceRange fullBatch iter
    let finalize : IterRet τ ρ → AFOut τ ρ := fun r =>
      { representationsOut :=
          if returnRepresentations then some r.reprs else none,
        finalAtomPositions := r.finalAtomPositions,
        rest := r.rest }
    (numRecycle ≠ 0 → override = some 0 →
      recycleTrace runOne (numIterModel numRecycle override)
          (if numRecycle = 0 then none else some zerosPrev) 0 =
        [(some zerosPrev, runOne (some zerosPrev) 0)] ∧
      alphaFoldForward numRecycle innerBatch resample override sliceRange
          fullBatch iter returnRepresentations =
        finalize (runOne (some zerosPrev) 0)) ∧
    (numRecycle = 0 →
      recycleTrace runOne (numIterModel numRecycle override)
          (if numRecycle = 0 then none else some zerosPrev) 0 =
        [(none, runOne none 0)] ∧
      alphaFoldForward numRecycle innerBatch resample override sliceRange
          fullBatch iter returnRepresentations =
        finalize (runOne none 0)) := by
  intro runOne finalize
  constructor
  · intro hnz hov
    subst hov
    have hni : numIterModel numRecycle (some 0) = 0 := by
      simp [numIterModel, hnz]
    rw [hni]
    refine ⟨by simp [recycleTrace, hnz], ?_⟩
    unfold alphaFoldForward
    rw [hni]
    simp only [hnz, if_false, recycleLoop]
  · intro hz
    subst hz
    have hni : numIterModel 0 override = 0 := by simp [numIterModel]
    rw [hni]
    refine ⟨by simp [recycleTrace], ?_⟩
    unfold alphaFoldForward
    rw [hni]
    simp only [if_true, recycleLoop]

/-- Witness for the amended C4: both branches exercised concretely
    (`num_recycle = 3` with override `0`, and `num_recycle = 0`). -/
theorem alphaFold_zero_recycle_witness :
    (recycleTrace
        (runSingleRecycling false 1 3 (fun _ _ => ()) () countIter)
        (numIterModel 3 (some 0)) (some zerosPrev) 0 =
      [(some zerosPrev,
        runSingleRecycling false 1 3 (fun _ _ => ()) () countIter
          (some zerosPrev) 0)]) ∧
    (recycleTrace
        (runSingleRecycling false 1 0 (fun _ _ => ()) () countIter)
        (numIterModel 0 none) none 0 =
      [(none,
        runSingleRecycling false 1 0 (fun _ _ => ()) () countIter none 0)]) := by
  have h1 := (alphaFold_zero_recycle (τ := ℤ) (ρ := ℤ) 3 1 false (some 0)
    (fun _ _ => ()) () countIter true).1 (by decide) rfl
  have h2 := (alphaFold_zero_recycle (τ := ℤ) (ρ := ℤ) 0 1 false none
    (fun _ _ => ()) () countIter true).2 rfl
  exact ⟨by simpa using h1.1, by simpa using h2.1⟩

/-- C6: the distogram head's output logits are exactly symmetric under
    swapping the two residue indices, for every pair representation, batch
    index, residue pair and bin. -/
theorem distogramLogits_symmetric (pairChannel : Nat) (w : T2) (b : T1)
    (pairRep : T4) (n i j c : Nat) :
    distogramLogits pairChannel w b pairRep n i j c =
      distogramLogits pairChannel w b pairRep n j i c := by
  simp only [distogramLogits]
  exact add_comm _ _

theorem foldl_add_rat (g : Nat → ℚ) :
    ∀ (m : Nat) (c : ℚ),
      (List.range m).foldl (fun a j => a + g j) c = c + tsumR m g := by
  intro m
  induction m with
  | zero => intro c; simp [tsumR]
  | succ k ih =>
    intro c
    rw [List.range_succ, List.foldl_append]
    simp only [List.foldl_cons, List.foldl_nil, ih, tsumR]
    rw [Finset.sum_range_succ]
    ring

theorem foldl_addCore_proj (proj : EnsCore → T1)
    (hproj : ∀ a b i, proj (addCore a b) i = proj a i + proj b i)
    (f : Nat → EnsCore) :
    ∀ (l : List Nat) (init : EnsCore) (i : Nat),
      proj (l.foldl (fun acc j => addCore acc (f j)) init) i =
        l.foldl (fun a j => a + proj (f j) i) (proj init i) := by
  intro l
  induction l with
  | nil => intro init i; rfl
  | cons x xs ih =>
    intro init i
    simp only [List.foldl_cons]
    rw [ih, hproj]

theorem ens_fold_eq_sum (proj : EnsCore → T1)
    (hproj : ∀ a b i, proj (addCore a b) i = proj a i + proj b i)
    (f : Nat → EnsCore) (n : Nat) (hn : 1 ≤ n) (i : Nat) :
    proj ((List.range (n - 1)).foldl
      (fun acc j => addCore acc (f (j + 1))) (f 0)) i =
      tsumR n (fun e => proj (f e) i) := by
  match n, hn with
  | m + 1, _ =>
    rw [foldl_addCore_proj proj hproj (fun j => f (j + 1)),
      foldl_add_rat (fun j => proj (f (j + 1)) i)]
    simp only [Nat.add_sub_cancel, tsumR]
    rw [Finset.sum_range_succ']
    ring

/-- C2: with ensembling enabled over `n ≥ 1` members, the iteration returns
    `pair`, `single` and `msa_first_row` representations equal to the
    arithmetic mean of the `n` per-member Orchestrator evaluations, and a
    `msa` representation equal to the first member's raw Orchestrator `msa`
    output exactly. -/
theorem alphaFoldIteration_ensembled_mean {β : Type} (evoformer : β → Reprs)
    (sliceBatch : Nat → β) (n : Nat) (hn : 1 ≤ n) :
    ∃ r : Reprs,
      alphaFoldIterationRepresentations evoformer sliceBatch n true =
        Except.ok r ∧
      (∀ i, r.single i =
        tsumR n (fun e => (evoformer (sliceBatch e)).single i) / (n : ℚ)) ∧
      (∀ i, r.pair i =
        tsumR n (fun e => (evoformer (sliceBatch e)).pair i) / (n : ℚ)) ∧
      (∀ i, r.msa_first_row i =
        tsumR n (fun e => (evoformer (sliceBatch e)).msa_first_row i) /
          (n : ℚ)) ∧
      (∀ i, r.msa i = (evoformer (sliceBatch 0)).msa i) := by
  have hok : alphaFoldIterationRepresentations evoformer sliceBatch n true =
      Except.ok
        { single := (divCore ((List.range (n - 1)).foldl
            (fun acc j => addCore acc (coreOf (evoformer (sliceBatch (j + 1)))))
            (coreOf (evoformer (sliceBatch 0)))) n).single,
          pair := (divCore ((List.range (n - 1)).foldl
            (fun acc j => addCore acc (coreOf (evoformer (sliceBatch (j + 1)))))
            (coreOf (evoformer (sliceBatch 0)))) n).pair,
          msa := (evoformer (sliceBatch 0)).msa,
          msa_first_row := (divCore ((List.range (n - 1)).foldl
            (fun acc j => addCore acc (coreOf (evoformer (sliceBatch (j + 1)))))
            (coreOf (evoformer (sliceBatch 0)))) n).msa_first_row } := by
    simp only [alphaFoldIterationRepresentations]
    rw [if_neg (by simp)]
    simp only [if_true]
  refine ⟨_, hok, ?_, ?_, ?_, fun i => rfl⟩
  · intro i
    have hs := ens_fold_eq_sum EnsCore.single (fun _ _ _ => rfl)
      (fun e => coreOf (evoformer (sliceBatch e))) n hn i
    exact congrArg (fun q => q / (n : ℚ)) hs
  · intro i
    have hs := ens_fold_eq_sum EnsCore.pair (fun _ _ _ => rfl)
      (fun e => coreOf (evoformer (sliceBatch e))) n hn i
    exact congrArg (fun q => q / (n : ℚ)) hs
  · intro i
    have hs := ens_fold_eq_sum EnsCore.msa_first_row (fun _ _ _ => rfl)
      (fun e => coreOf (evoformer (sliceBatch e))) n hn i
    exact congrArg (fun q => q / (n : ℚ)) hs

/-- Witness for C2: the ensembled mean at `n = 3` members with a concrete
    step-dependent Orchestrator probe. -/
theorem alphaFoldIteration_ensembled_mean_witness :
    1 ≤ 3 ∧
    ∃ r : Reprs,
      alphaFoldIterationRepresentations stepReprs (fun e => e) 3 true =
        Except.ok r ∧
      (∀ i, r.single i =
        tsumR 3 (fun e => (stepReprs e).single i) / (3 : ℚ)) ∧
      (∀ i, r.pair i =
        tsumR 3 (fun e => (stepReprs e).pair i) / (3 : ℚ)) ∧
      (∀ i, r.msa_first_row i =
        tsumR 3 (fun e => (stepReprs e).msa_first_row i) / (3 : ℚ)) ∧
      (∀ i, r.msa i = (stepReprs 0).msa i) :=
  ⟨by decide,
    alphaFoldIteration_ensembled_mean stepReprs (fun e => e) 3 (by decide)⟩

/-- C9 counterexample: requesting ensembling with exactly one ensemble
    member present does *not* fail: the iteration returns a value (the
    `assert num_ensemble == 1` only fires when ensembling is off). -/
theorem alphaFoldIteration_single_member_ok :
    (alphaFoldIterationRepresentations (fun _ : Unit => constReprs)
        (fun _ => ()) 1 true).toOption.isSome = true := by
  unfold alphaFoldIterationRepresentations
  rw [if_neg (by simp)]
  rfl

/-- C9 (amended): the iteration's ensemble-count check fires when
    ensembling is *not* requested and the batch holds more than one (or
    zero) ensemble members, failing fatally at first use; when ensembling
    is requested no count check occurs and the call returns a value. -/
theorem alphaFoldIteration_assert_ensemble {β : Type}
    (evoformer : β → Reprs) (sliceBatch : Nat → β) (n : Nat) :
    (n ≠ 1 →
      alphaFoldIterationRepresentations evoformer sliceBatch n false =
        Except.error "assert num_ensemble == 1") ∧
    (alphaFoldIterationRepresentations evoformer sliceBatch n
        true).toOption.isSome = true := by
  constructor
  · intro hn
    unfold alphaFoldIterationRepresentations
    rw [if_pos ⟨by simp, hn⟩]
  · unfold alphaFoldIterationRepresentations
    rw [if_neg (by simp)]
    rfl

/-- Witness for the amended C9: two members without ensembling fail; two
    members with ensembling succeed. -/
theorem alphaFoldIteration_assert_ensemble_witness :
    alphaFoldIterationRepresentations (fun _ : Unit => constReprs)
        (fun _ => ()) 2 false = Except.error "assert num_ensemble == 1" ∧
    (alphaFoldIterationRepresentations (fun _ : Unit => constReprs)
        (fun _ => ()) 2 true).toOption.isSome = true :=
  ⟨(alphaFoldIteration_assert_ensemble (fun _ : Unit => constReprs)
      (fun _ => ()) 2).1 (by decide),
    (alphaFoldIteration_assert_ensemble (fun _ : Unit => constReprs)
      (fun _ => ()) 2).2⟩

/-- C3: for every chunk size and every input, sub-batched evaluation of the
    Attention, Transition, OuterProductMean and TriangleMultiplication
    (outgoing and incoming) operations — slicing the designated inputs along
    the configured axis, applying the underlying operation per chunk, and
    concatenating along the output axis — agrees with the unchunked
    evaluation at every output index. -/
theorem subbatch_equals_unchunked (sz : Nat) (hsz : 0 < sz) :
    (∀ (p : AttnParams) (f : ℚ → ℚ) (Kk : Nat) (q_data m_data : T4)
        (bias : T5) (nb : Option T4) (n b qi o : Nat),
      subbatchAttention p f Kk sz q_data m_data bias nb n b qi o =
        attention p f Kk q_data m_data bias nb n b qi o) ∧
    (∀ (p : TransitionParams) (x : T4) (b s r j : Nat),
      subbatchTransition p sz x b s r j = transition_module p x b s r j) ∧
    (∀ (nSeq nOuter : Nat) (output_w : T3) (output_b : T1)
        (right_act left_act : T4) (n b d ff : Nat),
      subbatchOpmChunk nSeq nOuter output_w output_b right_act sz left_act
          n b d ff =
        compute_chunk nSeq nOuter output_w output_b right_act left_act
          n b d ff) ∧
    (∀ (K : Nat) (left right : T4) (b i j c : Nat),
      subbatchTriangleOutgoing K sz left right b i j c =
        triangleEinsumOutgoing K left right b i j c) ∧
    (∀ (K : Nat) (left right : T4) (b i j c : Nat),
      subbatchTriangleIncoming K sz left right b i j c =
        triangleEinsumIncoming K left right b i j c) := by
  refine ⟨?_, ?_, ?_, ?_, ?_⟩
  · intro p f Kk q_data m_data bias nb n b qi o
    simp only [subbatchAttention, attention, sliceAx1of4, sliceAx1of5,
      Nat.div_add_mod]
  · intro p x b s r j
    simp only [subbatchTransition, transition_module, sliceAx1of4,
      Nat.div_add_mod]
  · intro nSeq nOuter output_w output_b right_act left_act n b d ff
    simp only [subbatchOpmChunk, compute_chunk, sliceAx2of4,
      Nat.div_add_mod]
  · intro K left right b i j c
    simp only [subbatchTriangleOutgoing, triangleEinsumOutgoing,
      sliceAx1of4, Nat.div_add_mod]
  · intro K left right b i j c
    simp only [subbatchTriangleIncoming, triangleEinsumIncoming,
      sliceAx2of4, Nat.div_add_mod]

/-- Witness for C3: chunk size 2 on an axis of length 3 it does not divide
    (output row 2 sits alone in the second chunk), checked on the
    transition operation at a concrete input. -/
theorem subbatch_equals_unchunked_witness :
    subbatchTransition
        { in_dim := 1, inter_dim := 1, w1 := fun _ _ => 1,
          b1 := fun _ => 0, w2 := fun _ _ => 1, b2 := fun _ => 0 }
        2 (fun _ s _ _ => (s : ℚ)) 0 2 0 0 =
      transition_module
        { in_dim := 1, inter_dim := 1, w1 := fun _ _ => 1,
          b1 := fun _ => 0, w2 := fun _ _ => 1, b2 := fun _ => 0 }
        (fun _ s _ _ => (s : ℚ)) 0 2 0 0 :=
  (subbatch_equals_unchunked 2 (by decide)).2.1
    { in_dim := 1, inter_dim := 1, w1 := fun _ _ => 1,
      b1 := fun _ => 0, w2 := fun _ _ => 1, b2 := fun _ => 0 }
    (fun _ s _ _ => (s : ℚ)) 0 2 0 0

/-- C10: the global (query-pooled) attention output is independent of the
    `bias` argument — the pre-softmax bias is recomputed internally as
    `1e9 * (q_mask - 1)` and the passed-in bias is never used. -/
theorem globalAttention_bias_independent (p : GlobalAttnParams)
    (f : ℚ → ℚ) (Kk : Nat) (eps : ℚ) (q_data m_data q_mask : T4)
    (bias1 bias2 : T5) (n b i o : Nat) :
    globalAttention p f Kk eps q_data m_data q_mask bias1 n b i o =
      globalAttention p f Kk eps q_data m_data q_mask bias2 n b i o := rfl

/-- C7: with an all-zero template mask the template embedding's
    contribution to the pair activations is exactly the zero tensor, for
    every query embedding, per-template embedding pipeline and output
    index. -/
theorem templateEmbedding_zero_mask (p : AttnParams) (f : ℚ → ℚ)
    (numBatch numTemplates numRes sz : Nat) (training : Bool)
    (template_mask : T2) (query_embedding : T4) (ste : Nat → T4)
    (h : ∀ nn, nn < numBatch → ∀ t, t < numTemplates →
      template_mask nn t = 0) (n i j c : Nat) :
    templateEmbeddingForward p f numBatch numTemplates numRes sz training
      template_mask query_embedding ste n i j c = 0 := by
  have htot : tsumR numBatch (fun nn =>
      tsumR numTemplates (fun t => template_mask nn t)) = 0 := by
    unfold tsumR
    refine Finset.sum_eq_zero (fun nn hnn => ?_)
    refine Finset.sum_eq_zero (fun t ht => ?_)
    exact h nn (Finset.mem_range.mp hnn) t (Finset.mem_range.mp ht)
  simp only [templateEmbeddingForward, htot, lt_self_iff_false, if_false,
    mul_zero]

/-- Witness for C7: a concrete zero-mask instance (one batch, two
    templates, two residues) evaluates to zero. -/
theorem templateEmbedding_zero_mask_witness :
    templateEmbeddingForward
      { num_head := 1, key_dim := 1, value_dim := 1, q_dim := 1,
        m_dim := 1, scale := 1, query_w := fun _ _ _ => 1,
        key_w := fun _ _ _ => 1, value_w := fun _ _ _ => 1,
        gating := false, gating_w := fun _ _ _ => 0,
        gating_b := fun _ _ => 0, output_w := fun _ _ _ => 1,
        output_b := fun _ => 0 }
      (fun x => x) 1 2 2 1 false (fun _ _ => 0) (fun _ _ _ _ => 1)
      (fun _ _ _ _ _ => 1) 0 1 1 0 = 0 :=
  templateEmbedding_zero_mask _ _ 1 2 2 1 false _ _ _
    (fun _ _ _ _ => rfl) 0 1 1 0

/-- C8: one Evoformer block equals the fold of the claimed ordered list of
    residual updates — row attention with pair bias, column attention
    (global on the extra-MSA track), msa transition, outer product mean,
    triangle multiplication outgoing, triangle multiplication incoming,
    triangle attention starting node, triangle attention ending node, pair
    transition — each of the residual-add form
    `act = act + dropout (sublayer act mask)`; no update replaces an
    activation outright. -/
theorem evoformerIteration_ordered_residuals {M P Mm Pm : Type}
    [Add M] [Add P] (L : EvoSublayers M P Mm Pm) (is_extra_msa : Bool)
    (msa_act : M) (pair_act : P) (msa_mask : Mm) (pair_mask : Pm) :
    evoformerIterationForward L is_extra_msa msa_act pair_act msa_mask
        pair_mask =
      (evoformerClaimedUpdates L is_extra_msa msa_mask pair_mask).foldl
        (fun s u => u s) (msa_act, pair_act) := by
  cases is_extra_msa <;> rfl
